import Mathlib

/-
Verification development for the FINUFFT guru interface
(src/src/finufft.cpp together with src/include/common.h and
src/include/nufft_opts.h).

The file shallowly embeds the planner/executor control flow of
finufft.cpp: finufft_makeplan (lines 87-214), finufft_setpts
(lines 218-247), finufft_exec (lines 464-600, split here into the
type-1/2 branch and the type-3 branch) and finufft_destroy
(lines 604-621).

Machine integers (int, BIGINT) are modelled as Int or Nat; the loop
arithmetic of the batch loops is carried out in Nat under the
hypotheses (n_transf >= 1, blksize >= 1) that hold for valid plans.
Floating-point data (tolerances, coordinates, weights) never steers
the control flow that the claims are about, so values of type FLT and
CPX are not modelled; the integer error codes produced when external
routines act on them are supplied as oracle parameters.

External routines whose sources are not under src/
(setup_spreader_for_nufft, set_nf_type12, spreadSorted, interpSorted,
spreadcheck, indexSort, the FFTW wrappers and malloc) enter the model
as oracle fields of environment records; where their error behaviour
matters it is modelled from the spec, as indicated on the relevant
definitions.
-/

namespace Finufft

/-- Error codes returned by the guru interface.  Their numeric values
live in a header that is not under src/; only their identity matters
to the claims, so they are modelled as an inductive type. -/
inductive ErrCode where
  | warnEpsTooSmall
  | eMaxnalloc
  | eAlloc
  | eTypeNotValid
  | eDimNotValid
  | eNtransfNotValid
  | eUpsampfacNotValid
deriving DecidableEq

/-- Modelled from the spec: setup_spreader_for_nufft is declared in
src/include/common.h but its source is not under src/.  Per spec
section 4.1 it can warn that the tolerance is unattainable, and per
the section 6 option table an unsupported upsampling factor is
rejected; these are the non-zero codes it can hand back to
finufft_makeplan at line 115-117. -/
inductive SetupCode where
  | warnEpsTooSmall
  | upsampfacNotValid
deriving DecidableEq

def SetupCode.toErr : SetupCode → ErrCode
  | .warnEpsTooSmall => ErrCode.warnEpsTooSmall
  | .upsampfacNotValid => ErrCode.eUpsampfacNotValid

/-- The inner type 2 plan of a type 3 plan (fields innerT2Plan->n_transf
and its FFTW handle).  The handle is an opaque identifier: it changing
would mean the FFT plan was rebuilt. -/
structure InnerT2 where
  n_transf : ℕ
  fftwHandle : ℕ
deriving DecidableEq

/-- The fields of finufft_plan that the claims are about.  Pointer
fields are Bool (or Option) recording non-nullness; freeing a pointer
does not change the field, mirroring that the C code never nulls a
pointer after free. -/
structure Plan where
  type : ℤ
  dim : ℤ
  n_transf : ℤ
  fftsign : ℤ
  blksize : ℤ
  ms : ℤ
  mt : ℤ
  mu : ℤ
  nf1 : ℤ
  nf2 : ℤ
  nf3 : ℤ
  nj : ℤ
  X : Option ℕ
  Y : Option ℕ
  Z : Option ℕ
  phiHat : Bool
  fw : Bool
  fftwPlan : Bool
  sortIndices : Bool
  didSort : Bool
  rescaledPts : Bool
  t3ParamsSet : Bool
  innerT2 : Option InnerT2
deriving DecidableEq

/-- A plan record with everything unset, standing for the caller's
freshly declared finufft_plan. -/
def plan0 : Plan :=
  { type := 0, dim := 0, n_transf := 0, fftsign := 0, blksize := 0,
    ms := 1, mt := 1, mu := 1, nf1 := 1, nf2 := 1, nf3 := 1, nj := 0,
    X := none, Y := none, Z := none,
    phiHat := false, fw := false, fftwPlan := false,
    sortIndices := false, didSort := false,
    rescaledPts := false, t3ParamsSet := false, innerT2 := none }

/-- Environment of finufft_makeplan: the values coming back from
routines outside src/.  ompMaxThreads is MY_OMP_GET_MAX_THREADS() and
maxUsefulNthreads is the MAX_USEFUL_NTHREADS constant (both defined
outside src/); setNf is set_nf_type12 (modelled from the spec,
section 4.2: it either produces the fine-grid size or fails, with
ERR_MAXNALLOC, when the size would exceed the per-dimension cap);
maxNF is the MAX_NF constant; phiHatOk and fwOk are the outcomes of
the malloc at line 172 and the FFTW_ALLOC_CPX at line 191. -/
structure MakeplanEnv where
  ompMaxThreads : ℤ
  maxUsefulNthreads : ℤ
  setupIer : Option SetupCode
  setNf : ℤ → Option ℤ
  maxNF : ℤ
  phiHatOk : Bool
  fwOk : Bool

/-- Result of finufft_makeplan: the returned code (none for 0), the
plan as written through the pointer argument, and which of the two
allocations made by this call are still live at return.  phiHatLive
and the plan's phiHat field differ on the line-192 failure path, where
phiHat is freed (no longer live) but the field still holds the stale
pointer. -/
structure MakeplanResult where
  ret : Option ErrCode
  plan : Plan
  phiHatLive : Bool
  fwLive : Bool
deriving DecidableEq

/-- Embedding of lines 166-205 of finufft_makeplan (the tail of the
type 1/2 branch after the fine-grid sizes are known): allocate and
fill phiHat, enforce the MAX_NF cap on nf1*nf2*nf3*transfPerBatch,
allocate fw, and plan the FFT.  Note that the line-186 MAX_NF failure
returns without freeing phiHat, while the line-192 fw failure frees
it. -/
def makeplanT12Tail (p : Plan) (transfPerBatch : ℤ) (env : MakeplanEnv) :
    MakeplanResult :=
  if env.phiHatOk then
    let p5 := { p with phiHat := true }
    if env.maxNF < p5.nf1 * p5.nf2 * p5.nf3 * transfPerBatch then
      { ret := some ErrCode.eMaxnalloc, plan := p5,
        phiHatLive := true, fwLive := false }
    else if env.fwOk then
      { ret := none, plan := { p5 with fw := true, fftwPlan := true },
        phiHatLive := true, fwLive := true }
    else
      { ret := some ErrCode.eAlloc, plan := p5,
        phiHatLive := false, fwLive := false }
  else
    { ret := some ErrCode.eAlloc, plan := p,
      phiHatLive := false, fwLive := false }

/-- Embedding of finufft_makeplan (lines 87-214): validate type, dim
and n_transf; run the spreader setup; store the cleaned-up sign and
the batch size (default min(MY_OMP_GET_MAX_THREADS(),
MAX_USEFUL_NTHREADS) when the caller passed zero); then, for types 1
and 2, read the mode sizes, choose the fine-grid sizes and run the
allocation tail; for type 3 do nothing further. -/
def finufft_makeplan (type dim : ℤ) (n_modes : ℤ × ℤ × ℤ)
    (iflag n_transf blksize : ℤ) (p0 : Plan) (env : MakeplanEnv) :
    MakeplanResult :=
  if type ≠ 1 ∧ type ≠ 2 ∧ type ≠ 3 then
    { ret := some ErrCode.eTypeNotValid, plan := p0,
      phiHatLive := false, fwLive := false }
  else if dim ≠ 1 ∧ dim ≠ 2 ∧ dim ≠ 3 then
    { ret := some ErrCode.eDimNotValid, plan := p0,
      phiHatLive := false, fwLive := false }
  else if n_transf < 1 then
    { ret := some ErrCode.eNtransfNotValid, plan := p0,
      phiHatLive := false, fwLive := false }
  else
    match env.setupIer with
    | some c =>
      { ret := some c.toErr, plan := p0,
        phiHatLive := false, fwLive := false }
    | none =>
      let p1 : Plan :=
        { p0 with
          type := type, dim := dim, n_transf := n_transf,
          fftsign := if 0 ≤ iflag then 1 else -1,
          blksize :=
            if blksize = 0 then
              min env.ompMaxThreads env.maxUsefulNthreads
            else blksize,
          X := none, Y := none, Z := none,
          nf1 := 1, nf2 := 1, nf3 := 1,
          ms := 1, mt := 1, mu := 1 }
      if type = 1 ∨ type = 2 then
        let transfPerBatch : ℤ := min p1.blksize p1.n_transf
        let p2 := { p1 with ms := n_modes.1 }
        match env.setNf n_modes.1 with
        | none =>
          { ret := some ErrCode.eMaxnalloc, plan := p2,
            phiHatLive := false, fwLive := false }
        | some nf1 =>
          let p3 := { p2 with nf1 := nf1 }
          if 1 < dim then
            let p4a := { p3 with mt := n_modes.2.1 }
            match env.setNf n_modes.2.1 with
            | none =>
              { ret := some ErrCode.eMaxnalloc, plan := p4a,
                phiHatLive := false, fwLive := false }
            | some nf2 =>
              let p4 := { p4a with nf2 := nf2 }
              if 2 < dim then
                let p5a := { p4 with mu := n_modes.2.2 }
                match env.setNf n_modes.2.2 with
                | none =>
                  { ret := some ErrCode.eMaxnalloc, plan := p5a,
                    phiHatLive := false, fwLive := false }
                | some nf3 =>
                  makeplanT12Tail { p5a with nf3 := nf3 } transfPerBatch env
              else
                makeplanT12Tail p4 transfPerBatch env
          else
            makeplanT12Tail p3 transfPerBatch env
      else
        { ret := none, plan := { p1 with fftwPlan := false },
          phiHatLive := false, fwLive := false }

/-- Embedding of finufft_setpts (lines 218-247).  The type 1/2 branch
runs spreadcheck (oracle code), allocates the sort index, runs
indexSort (oracle result) and borrows the point arrays.  The type 3
branch of the source (lines 242-244) is empty, so the function only
records nj and returns 0 for type 3. -/
def finufft_setpts (p : Plan) (nj : ℤ) (xj yj zj : Option ℕ) (nk : ℤ)
    (spreadcheckIer : ℤ) (didSortRes : Bool) : ℤ × Plan :=
  let p1 := { p with nj := nj }
  if p1.type ≠ 3 then
    if spreadcheckIer ≠ 0 then (spreadcheckIer, p1)
    else
      (0, { p1 with sortIndices := true, didSort := didSortRes,
                    X := xj, Y := yj, Z := zj })
  else
    (0, p1)

/-- Number of iterations of the batch loop
for(batchNum = 0; batchNum*blksize < n_transf; batchNum++)
(lines 477 and 549), namely the ceiling of n_transf / blksize. -/
def numBatches (n bs : ℕ) : ℕ := (n + bs - 1) / bs

/-- Line 479 and line 554:
nSetsThisBatch = min(n_transf - batchNum*blksize, blksize). -/
def nSetsThisBatch (n bs b : ℕ) : ℕ := min (n - b * bs) bs

/-- Line 553: lastRound = ((batchNum+1)*blksize > n_transf). -/
def lastRound (n bs b : ℕ) : Bool := decide (n < (b + 1) * bs)

/-- State of the type 1/2 body of finufft_exec: the early-return code
(none while the loop is still running) and the ier_spreads array
calloc'd at line 473, modelled as a function from set index to code. -/
structure Exec12State where
  ret : Option ℤ
  iers : ℕ → ℤ

/-- The writes a spreadAllSetsInBatch / interpAllSetsInBatch call
makes to the ier_spreads array: for each set i of the batch whose
spread or interp call produced a non-zero code, store that code
(lines 287-292 and 330-336); other entries keep their old values,
since the source only writes on a non-zero code. -/
def writeIers (err : ℕ → ℤ) (nSets : ℕ) (old : ℕ → ℤ) : ℕ → ℤ :=
  fun i => if i < nSets ∧ err i ≠ 0 then err i else old i

/-- One iteration of the type 1/2 batch loop (lines 477-519).  Type 1:
spreadAllSetsInBatch writes each non-zero spreadSorted code into
ier_spreads, then lines 487-490 return the first non-zero entry.
Type 2: deconvolve and the FFT produce no codes, and
interpAllSetsInBatch writes its codes into ier_spreads, which the
loop never reads. -/
def exec12Step (type : ℤ) (n bs : ℕ) (spreadErr interpErr : ℕ → ℕ → ℤ)
    (st : Exec12State) (b : ℕ) : Exec12State :=
  match st.ret with
  | some _ => st
  | none =>
    if type = 1 then
      match (List.range (nSetsThisBatch n bs b)).find? (fun i =>
          decide (writeIers (spreadErr b) (nSetsThisBatch n bs b) st.iers i ≠ 0)) with
      | some i =>
        { ret := some (writeIers (spreadErr b) (nSetsThisBatch n bs b) st.iers i),
          iers := writeIers (spreadErr b) (nSetsThisBatch n bs b) st.iers }
      | none =>
        { ret := none,
          iers := writeIers (spreadErr b) (nSetsThisBatch n bs b) st.iers }
    else
      { ret := none,
        iers := writeIers (interpErr b) (nSetsThisBatch n bs b) st.iers }

/-- Embedding of the type 1/2 branch of finufft_exec (lines 475-531
plus the final return 0 at line 599).  spreadErr b i and interpErr b i
are the codes spreadSorted / interpSorted produce for set i of batch
b. -/
def finufft_exec12 (type : ℤ) (n bs : ℕ)
    (spreadErr interpErr : ℕ → ℕ → ℤ) : ℤ :=
  let final := (List.range (numBatches n bs)).foldl
    (exec12Step type n bs spreadErr interpErr) { ret := none, iers := fun _ => 0 }
  match final.ret with
  | some e => e
  | none => 0

/-- Outcome of the type 3 branch of finufft_exec: the line-539 cpj
allocation failure, the line-580 exit(ier_t2), or an ordinary
return. -/
inductive Exec3Outcome where
  | allocFail
  | exited (code : ℤ)
  | ret (code : ℤ)
deriving DecidableEq

/-- State of the type 3 batch loop: whether exit was called (and with
which code), the inner type 2 plan, and the ier_spreads array. -/
structure Exec3State where
  exitCode : Option ℤ
  inner : InnerT2
  iers : ℕ → ℤ

/-- One iteration of the type 3 batch loop (lines 549-586): prephase
(no codes), spreadAllSetsInBatch into ier_spreads (never read), then,
when lastRound holds, mutate innerT2Plan->n_transf to nSetsThisBatch
(lines 571-573), run the inner type 2 execute, and on a positive code
call exit (line 580); the deconvolve step produces no codes. -/
def exec3Step (n bs : ℕ) (spreadErr : ℕ → ℕ → ℤ) (innerErr : ℕ → ℤ)
    (st : Exec3State) (b : ℕ) : Exec3State :=
  match st.exitCode with
  | some _ => st
  | none =>
    if 0 < innerErr b then
      { exitCode := some (innerErr b),
        inner := if lastRound n bs b then
            { st.inner with n_transf := nSetsThisBatch n bs b }
          else st.inner,
        iers := writeIers (spreadErr b) (nSetsThisBatch n bs b) st.iers }
    else
      { exitCode := none,
        inner := if lastRound n bs b then
            { st.inner with n_transf := nSetsThisBatch n bs b }
          else st.inner,
        iers := writeIers (spreadErr b) (nSetsThisBatch n bs b) st.iers }

/-- Embedding of the type 3 branch of finufft_exec (lines 533-599):
allocate cpj (oracle cpjOk), run the batch loop, free cpj and return
0.  innerErr b is the code of the inner finufft_exec call for batch b.
The second component is the final state of the inner type 2 plan. -/
def finufft_exec3 (n bs : ℕ) (inner0 : InnerT2)
    (spreadErr : ℕ → ℕ → ℤ) (innerErr : ℕ → ℤ) (cpjOk : Bool) :
    Exec3Outcome × InnerT2 :=
  if cpjOk then
    let final := (List.range (numBatches n bs)).foldl
      (exec3Step n bs spreadErr innerErr)
      { exitCode := none, inner := inner0, iers := fun _ => 0 }
    match final.exitCode with
    | some e => (Exec3Outcome.exited e, final.inner)
    | none => (Exec3Outcome.ret 0, final.inner)
  else
    (Exec3Outcome.allocFail, inner0)

/-- The deallocation steps finufft_destroy can take, in source
order. -/
inductive FreeAction where
  | fftwDestroy
  | fwFree
  | phiHatFree
  | sortIndicesFree
  | rescaledFree
  | innerDestroy
deriving DecidableEq

/-- Embedding of finufft_destroy (lines 604-621): free the FFTW plan,
fw, phiHat and sortIndices, each only when non-null, in that order;
the type-3 block (lines 618-619) is empty, so the rescaled point
arrays and the inner plan are never freed.  No field of the plan is
modified, so the plan comes back unchanged. -/
def finufft_destroy (p : Plan) : List FreeAction × Plan :=
  ((if p.fftwPlan then [FreeAction.fftwDestroy] else []) ++
   (if p.fw then [FreeAction.fwFree] else []) ++
   (if p.phiHat then [FreeAction.phiHatFree] else []) ++
   (if p.sortIndices then [FreeAction.sortIndicesFree] else []), p)

/-- Which of the four pointer fields guards each free in
finufft_destroy; the type-3 actions are guarded by nothing since the
source never performs them. -/
def destroyGuard (p : Plan) : FreeAction → Bool
  | FreeAction.fftwDestroy => p.fftwPlan
  | FreeAction.fwFree => p.fw
  | FreeAction.phiHatFree => p.phiHat
  | FreeAction.sortIndicesFree => p.sortIndices
  | _ => false

/-- A concrete makeplan environment on which every external call
succeeds: 8 OpenMP threads, MAX_USEFUL_NTHREADS = 24, fine-grid sizer
doubling the mode count, a large MAX_NF. -/
def envA : MakeplanEnv :=
  { ompMaxThreads := 8, maxUsefulNthreads := 24, setupIer := none,
    setNf := fun m => some (2 * m), maxNF := 1000000,
    phiHatOk := true, fwOk := true }

/-- A concrete makeplan environment with a small MAX_NF, used to drive
finufft_makeplan onto the line-186 ERR_MAXNALLOC path. -/
def envB : MakeplanEnv :=
  { ompMaxThreads := 8, maxUsefulNthreads := 24, setupIer := none,
    setNf := fun m => some (2 * m), maxNF := 100,
    phiHatOk := true, fwOk := true }

/-- A concrete type 3 plan after its points were attached: sort index
allocated, rescaled point copies owned, inner type 2 plan built. -/
def plan3d : Plan :=
  { plan0 with type := 3, sortIndices := true, rescaledPts := true,
               innerT2 := some { n_transf := 2, fftwHandle := 11 } }

/-- A concrete freshly made type 3 plan, before set_points. -/
def plan3s : Plan := { plan0 with type := 3, dim := 1, n_transf := 1 }

/-- Concrete spread-error oracle: every set of batch 1 fails with
code 7, all other spreads succeed. -/
def sEw : ℕ → ℕ → ℤ := fun b _ => if b = 1 then 7 else 0

/-- Concrete interpolation-error oracle: every interpolation fails
with code 4. -/
def iEw : ℕ → ℕ → ℤ := fun _ _ => 4

/-- Concrete inner type 2 error oracle: the inner execute of batch 0
fails with code 5, later ones succeed. -/
def iE3w : ℕ → ℤ := fun b => if b = 0 then 5 else 0

/-- A concrete inner type 2 plan. -/
def inner0w : InnerT2 := { n_transf := 2, fftwHandle := 11 }

/-- A concrete running state of the type 3 batch loop. -/
def st3w : Exec3State :=
  { exitCode := none, inner := inner0w, iers := fun _ => 0 }

/-- A concrete makeplan environment on which the FFTW allocation of fw
fails, driving finufft_makeplan onto the line-192 ERR_ALLOC path. -/
def envC : MakeplanEnv :=
  { ompMaxThreads := 8, maxUsefulNthreads := 24, setupIer := none,
    setNf := fun m => some (2 * m), maxNF := 1000000,
    phiHatOk := true, fwOk := false }

/-- The guard batchNum*blksize < n_transf of the batch loop holds
exactly for the first numBatches values of batchNum. -/
theorem lt_numBatches_iff {n bs : ℕ} (hbs : 0 < bs) (b : ℕ) :
    b < numBatches n bs ↔ b * bs < n := by
  unfold numBatches
  rw [Nat.lt_iff_add_one_le, Nat.le_div_iff_mul_le hbs, add_one_mul]
  have h : ∀ x : ℕ, x + bs ≤ n + bs - 1 ↔ x < n := by intro x; omega
  exact h (b * bs)

/-- Summing nSetsThisBatch over all iterations of the batch loop gives
back n_transf. -/
theorem sum_nSetsThisBatch {bs : ℕ} (hbs : 0 < bs) :
    ∀ n, Finset.sum (Finset.range (numBatches n bs))
      (fun b => nSetsThisBatch n bs b) = n := by
  intro n
  induction n using Nat.strong_induction_on with
  | _ n ih =>
    rcases Nat.eq_zero_or_pos n with h0 | hn
    · subst h0
      have hz : numBatches 0 bs = 0 := by
        unfold numBatches; exact Nat.div_eq_of_lt (by omega)
      rw [hz]; simp
    · by_cases hsmall : n ≤ bs
      · have hNB : numBatches n bs = 1 := by
          unfold numBatches
          have h1 : n + bs - 1 = bs * 1 + (n - 1) := by omega
          rw [h1, Nat.mul_add_div hbs, Nat.div_eq_of_lt (by omega : n - 1 < bs)]
        rw [hNB, Finset.sum_range_one]
        unfold nSetsThisBatch
        rw [Nat.zero_mul, Nat.sub_zero]
        omega
      · push_neg at hsmall
        have hNB : numBatches n bs = numBatches (n - bs) bs + 1 := by
          unfold numBatches
          have h2 : n - bs + bs - 1 = n - 1 := by omega
          have h1 : n + bs - 1 = bs * 1 + (n - 1) := by omega
          rw [h2, h1, Nat.mul_add_div hbs]
          exact Nat.add_comm 1 _
        have hshift : ∀ b, nSetsThisBatch n bs (b + 1) = nSetsThisBatch (n - bs) bs b := by
          intro b
          unfold nSetsThisBatch
          have h3 : (b + 1) * bs = b * bs + bs := by ring
          have h4 : ∀ x : ℕ, n - (x + bs) = n - bs - x := by intro x; omega
          rw [h3, h4 (b * bs)]
        have hf0 : nSetsThisBatch n bs 0 = bs := by
          unfold nSetsThisBatch
          rw [Nat.zero_mul, Nat.sub_zero]
          omega
        rw [hNB, Finset.sum_range_succ',
            Finset.sum_congr rfl (fun b _ => hshift b), hf0,
            ih (n - bs) (by omega)]
        omega

/-- The lastRound flag of the type 3 batch loop holds exactly at the
final batch when blksize does not divide n_transf. -/
theorem lastRound_iff {n bs b : ℕ} (hbs : 0 < bs) (hb : b * bs < n) :
    lastRound n bs b = true ↔ (b + 1 = numBatches n bs ∧ ¬ bs ∣ n) := by
  have hg1 := lt_numBatches_iff (n := n) hbs b
  have hg2 := lt_numBatches_iff (n := n) hbs (b + 1)
  simp only [lastRound, decide_eq_true_eq]
  constructor
  · intro h
    have hlt : b < numBatches n bs := hg1.mpr hb
    have hnlt : ¬ (b + 1 < numBatches n bs) := by
      rw [hg2]; intro hc; exact absurd (hc.trans h) (lt_irrefl _)
    refine ⟨by omega, ?_⟩
    rintro ⟨k, hk⟩
    subst hk
    have hk1 : b < k := by
      by_contra hc
      push_neg at hc
      have hm : bs * k ≤ bs * b := Nat.mul_le_mul_left bs hc
      have hcomm : b * bs = bs * b := Nat.mul_comm _ _
      omega
    have hk2 : k < b + 1 := by
      by_contra hc
      push_neg at hc
      have hm : bs * (b + 1) ≤ bs * k := Nat.mul_le_mul_left bs hc
      have hcomm : (b + 1) * bs = bs * (b + 1) := Nat.mul_comm _ _
      omega
    omega
  · rintro ⟨hnb, hndvd⟩
    have h2 : ¬ ((b + 1) * bs < n) := by
      rw [← hg2]; omega
    have hne : n ≠ (b + 1) * bs := by
      intro he
      exact hndvd ⟨b + 1, by rw [he, Nat.mul_comm]⟩
    omega

/-- C3: for a valid plan (n_transf >= 1, blksize >= 1) the batch loop
of finufft_exec runs batchNum over exactly the range where
batchNum*blksize < n_transf; each batch handles
nSetsThisBatch = min(n_transf - batchNum*blksize, blksize) <= blksize
sets; every batch before the last handles exactly blksize sets; and
the batch sizes sum to n_transf. -/
theorem c3_sum_of_work (n bs : ℕ) (hbs : 0 < bs) (hn : 0 < n) :
    (∀ b, b < numBatches n bs ↔ b * bs < n) ∧
    (∀ b, nSetsThisBatch n bs b = min (n - b * bs) bs ∧ nSetsThisBatch n bs b ≤ bs) ∧
    (∀ b, b + 1 < numBatches n bs → nSetsThisBatch n bs b = bs) ∧
    Finset.sum (Finset.range (numBatches n bs)) (fun b => nSetsThisBatch n bs b) = n := by
  refine ⟨fun b => lt_numBatches_iff hbs b, fun b => ⟨rfl, Nat.min_le_right _ _⟩, ?_, sum_nSetsThisBatch hbs n⟩
  intro b hb1
  have hlt : (b + 1) * bs < n := (lt_numBatches_iff hbs (b + 1)).mp hb1
  have h3 : (b + 1) * bs = b * bs + bs := by ring
  unfold nSetsThisBatch
  omega

/-- C3 witness: the batch decomposition of 5 transforms at batch size
2 gives batches of sizes 2, 2, 1. -/
theorem c3_sum_of_work_witness :
    0 < 2 ∧ 0 < 5 ∧
    ((2 : ℕ) < numBatches 5 2 ↔ 2 * 2 < 5) ∧
    nSetsThisBatch 5 2 0 = 2 ∧
    Finset.sum (Finset.range (numBatches 5 2)) (fun b => nSetsThisBatch 5 2 b) = 5 :=
  ⟨by decide, by decide, (c3_sum_of_work 5 2 (by decide) (by decide)).1 2,
   (c3_sum_of_work 5 2 (by decide) (by decide)).2.2.1 0 (by decide),
   (c3_sum_of_work 5 2 (by decide) (by decide)).2.2.2⟩

/-- Searching an appended list finds whatever the first part finds. -/
theorem find?_append_some {α : Type} {p : α → Bool} {l1 l2 : List α} {x : α}
    (h : l1.find? p = some x) : (l1 ++ l2).find? p = some x := by
  induction l1 with
  | nil => simp [List.find?] at h
  | cons a t ih =>
    by_cases hp : p a = true
    · rw [List.cons_append, List.find?_cons_of_pos _ hp]
      rw [List.find?_cons_of_pos _ hp] at h
      exact h
    · rw [List.cons_append, List.find?_cons_of_neg _ hp]
      rw [List.find?_cons_of_neg _ hp] at h
      exact ih h

/-- Searching an appended list skips a first part with no match. -/
theorem find?_append_none {α : Type} {p : α → Bool} {l1 l2 : List α}
    (h : l1.find? p = none) : (l1 ++ l2).find? p = l2.find? p := by
  induction l1 with
  | nil => rfl
  | cons a t ih =>
    have hp : ¬ p a = true := by
      intro hc
      rw [List.find?_cons_of_pos _ hc] at h
      exact Option.noConfusion h
    rw [List.cons_append, List.find?_cons_of_neg _ hp]
    rw [List.find?_cons_of_neg _ hp] at h
    exact ih h

/-- find? over List.range returns the least index satisfying the
predicate. -/
theorem range_find?_eq_some {p : ℕ → Bool} {n i : ℕ} (hin : i < n)
    (hpi : p i = true) (hmin : ∀ j, j < i → p j = false) :
    (List.range n).find? p = some i := by
  induction n with
  | zero => omega
  | succ m ih =>
    rw [List.range_succ]
    rcases Nat.lt_or_ge i m with him | him
    · exact find?_append_some (ih him)
    · have hi : i = m := by omega
      subst hi
      have hnone : (List.range i).find? p = none := by
        apply List.find?_eq_none.mpr
        intro x hx
        rw [List.mem_range] at hx
        simp [hmin x hx]
      rw [find?_append_none hnone, List.find?_cons_of_pos _ hpi]

/-- Splitting a fold over List.range at an index. -/
theorem foldl_range_split {α : Type} (g : α → ℕ → α) (N k : ℕ) (hk : k ≤ N)
    (init : α) :
    (List.range N).foldl g init =
      ((List.range N).drop k).foldl g ((List.range k).foldl g init) := by
  conv_lhs => rw [← List.take_append_drop k (List.range N)]
  rw [List.foldl_append, List.take_range, Nat.min_eq_left hk]

/-- Once the type 1/2 batch loop has returned, later batches change
nothing. -/
theorem exec12Step_absorb (type : ℤ) (n bs : ℕ) (sE iE : ℕ → ℕ → ℤ)
    (st : Exec12State) (b : ℕ) (e : ℤ) (h : st.ret = some e) :
    exec12Step type n bs sE iE st b = st := by
  simp [exec12Step, h]

theorem exec12_foldl_absorb (type : ℤ) (n bs : ℕ) (sE iE : ℕ → ℕ → ℤ)
    (l : List ℕ) (st : Exec12State) (e : ℤ) (h : st.ret = some e) :
    l.foldl (exec12Step type n bs sE iE) st = st := by
  induction l with
  | nil => rfl
  | cons a t ih =>
    rw [List.foldl_cons, exec12Step_absorb type n bs sE iE st a e h]
    exact ih

/-- A type 2 batch never sets the return code. -/
theorem exec12Step_type2 (n bs : ℕ) (sE iE : ℕ → ℕ → ℤ)
    (st : Exec12State) (b : ℕ) (h : st.ret = none) :
    exec12Step 2 n bs sE iE st b =
      { ret := none, iers := writeIers (iE b) (nSetsThisBatch n bs b) st.iers } := by
  simp [exec12Step, h]

theorem exec12_type2_ret (n bs : ℕ) (sE iE : ℕ → ℕ → ℤ) :
    ∀ (l : List ℕ) (st : Exec12State), st.ret = none →
      (l.foldl (exec12Step 2 n bs sE iE) st).ret = none := by
  intro l
  induction l with
  | nil => intro st h; exact h
  | cons a t ih =>
    intro st h
    rw [List.foldl_cons, exec12Step_type2 n bs sE iE st a h]
    exact ih _ rfl

/-- A type 1 batch on a still-running state. -/
theorem exec12Step_type1 (n bs : ℕ) (sE iE : ℕ → ℕ → ℤ)
    (st : Exec12State) (b : ℕ) (h : st.ret = none) :
    exec12Step 1 n bs sE iE st b =
      match (List.range (nSetsThisBatch n bs b)).find? (fun i =>
          decide (writeIers (sE b) (nSetsThisBatch n bs b) st.iers i ≠ 0)) with
      | some i =>
        { ret := some (writeIers (sE b) (nSetsThisBatch n bs b) st.iers i),
          iers := writeIers (sE b) (nSetsThisBatch n bs b) st.iers }
      | none =>
        { ret := none, iers := writeIers (sE b) (nSetsThisBatch n bs b) st.iers } := by
  simp [exec12Step, h]

/-- Writing only zero codes leaves a zero ier_spreads array zero. -/
theorem writeIers_zero {err : ℕ → ℤ} {nSets : ℕ} {old : ℕ → ℤ}
    (hz : ∀ i, i < nSets → err i = 0) (hold : ∀ i, old i = 0) :
    ∀ i, writeIers err nSets old i = 0 := by
  intro i
  unfold writeIers
  by_cases hc : i < nSets ∧ err i ≠ 0
  · exact absurd (hz i hc.1) hc.2
  · rw [if_neg hc]
    exact hold i

/-- The line 487-490 scan of an all-zero ier_spreads array finds
nothing. -/
theorem find?_of_all_zero {f : ℕ → ℤ} (hf : ∀ i, f i = 0) (k : ℕ) :
    (List.range k).find? (fun i => decide (f i ≠ 0)) = none := by
  apply List.find?_eq_none.mpr
  intro x hx
  simp [hf x]

/-- Batches whose spreads all succeed leave the type 1 loop running
with an all-zero ier_spreads array. -/
theorem exec12_zero_prefix (n bs : ℕ) (sE iE : ℕ → ℕ → ℤ) :
    ∀ (l : List ℕ) (st : Exec12State),
      (∀ b ∈ l, ∀ i, i < nSetsThisBatch n bs b → sE b i = 0) →
      st.ret = none → (∀ i, st.iers i = 0) →
      (l.foldl (exec12Step 1 n bs sE iE) st).ret = none ∧
        ∀ i, (l.foldl (exec12Step 1 n bs sE iE) st).iers i = 0 := by
  intro l
  induction l with
  | nil => intro st _ hr hi; exact ⟨hr, hi⟩
  | cons a t ih =>
    intro st hz hr hi
    rw [List.foldl_cons]
    have hza : ∀ i, i < nSetsThisBatch n bs a → sE a i = 0 :=
      hz a (List.mem_cons_self a t)
    have hwz : ∀ i, writeIers (sE a) (nSetsThisBatch n bs a) st.iers i = 0 :=
      writeIers_zero hza hi
    have hstep : exec12Step 1 n bs sE iE st a =
        { ret := none, iers := writeIers (sE a) (nSetsThisBatch n bs a) st.iers } := by
      rw [exec12Step_type1 n bs sE iE st a hr, find?_of_all_zero hwz]
    rw [hstep]
    exact ih _ (fun b hb => hz b (List.mem_cons_of_mem a hb)) rfl hwz

/-- Once the type 3 batch loop has called exit, nothing changes. -/
theorem exec3Step_absorb (n bs : ℕ) (sE : ℕ → ℕ → ℤ) (iE : ℕ → ℤ)
    (st : Exec3State) (b : ℕ) (e : ℤ) (h : st.exitCode = some e) :
    exec3Step n bs sE iE st b = st := by
  simp [exec3Step, h]

theorem exec3_foldl_absorb (n bs : ℕ) (sE : ℕ → ℕ → ℤ) (iE : ℕ → ℤ)
    (l : List ℕ) (st : Exec3State) (e : ℤ) (h : st.exitCode = some e) :
    l.foldl (exec3Step n bs sE iE) st = st := by
  induction l with
  | nil => rfl
  | cons a t ih =>
    rw [List.foldl_cons, exec3Step_absorb n bs sE iE st a e h]
    exact ih

/-- No step of the type 3 batch loop ever touches the inner plan's
FFTW handle. -/
theorem exec3Step_handle (n bs : ℕ) (sE : ℕ → ℕ → ℤ) (iE : ℕ → ℤ)
    (st : Exec3State) (b : ℕ) :
    (exec3Step n bs sE iE st b).inner.fftwHandle = st.inner.fftwHandle := by
  rcases st with ⟨ec, inn, ie⟩
  cases ec <;> simp [exec3Step] <;> split_ifs <;> rfl

theorem exec3_foldl_handle (n bs : ℕ) (sE : ℕ → ℕ → ℤ) (iE : ℕ → ℤ) :
    ∀ (l : List ℕ) (st : Exec3State),
      ((l.foldl (exec3Step n bs sE iE) st).inner.fftwHandle = st.inner.fftwHandle) := by
  intro l
  induction l with
  | nil => intro st; rfl
  | cons a t ih =>
    intro st
    rw [List.foldl_cons]
    exact (ih _).trans (exec3Step_handle n bs sE iE st a)

/-- Batches whose inner type 2 execute succeeds (code not positive)
leave the type 3 loop running. -/
theorem exec3_noexit (n bs : ℕ) (sE : ℕ → ℕ → ℤ) (iE : ℕ → ℤ) :
    ∀ (l : List ℕ) (st : Exec3State),
      (∀ b ∈ l, ¬ 0 < iE b) → st.exitCode = none →
      (l.foldl (exec3Step n bs sE iE) st).exitCode = none := by
  intro l
  induction l with
  | nil => intro st _ h; exact h
  | cons a t ih =>
    intro st hz h
    rw [List.foldl_cons]
    have hstep : (exec3Step n bs sE iE st a).exitCode = none := by
      simp [exec3Step, h, hz a (List.mem_cons_self a t)]
    have hrest : exec3Step n bs sE iE st a =
        { exitCode := none,
          inner := (exec3Step n bs sE iE st a).inner,
          iers := (exec3Step n bs sE iE st a).iers } := by
      rcases hval : exec3Step n bs sE iE st a with ⟨ec, inn, ie⟩
      rw [hval] at hstep
      simp at hstep
      rw [hstep]
    rw [hrest]
    exact ih _ (fun b hb => hz b (List.mem_cons_of_mem a hb)) rfl

/-- A positive inner type 2 code makes the step call exit with that
code. -/
theorem exec3Step_exit (n bs : ℕ) (sE : ℕ → ℕ → ℤ) (iE : ℕ → ℤ)
    (st : Exec3State) (b : ℕ) (h : st.exitCode = none) (hp : 0 < iE b) :
    (exec3Step n bs sE iE st b).exitCode = some (iE b) := by
  simp [exec3Step, h, hp]

/-- C1 counterexample: in a type 2 execute with one transform and one
batch, the interpolation of set 0 fails with code 4, yet finufft_exec
returns 0: the codes written by interpAllSetsInBatch are never read,
so the claim that the first non-zero error code of a type 2
interpolation is surfaced is false. -/
theorem c1_counterexample :
    finufft_exec12 2 1 1 (fun _ _ => 0) iEw = 0 ∧ iEw 0 0 = 4 ∧ (0 : ℤ) ≠ 4 := by
  decide

/-- C1 (amended): in the type 1/2 branch of finufft_exec only type 1
spread errors abort the batch loop, and the code surfaced is that of
the lowest-numbered failing set of the earliest failing batch; a type
2 execute returns 0 whatever codes interpolation produces; in the type
3 branch spread codes are likewise never read, and the first batch
whose inner type 2 execute yields a positive code makes the process
exit with that code instead of returning, while without such a code
the branch returns 0. -/
theorem c1_amended :
    (∀ (n bs : ℕ) (sE iE : ℕ → ℕ → ℤ), finufft_exec12 2 n bs sE iE = 0) ∧
    (∀ (n bs b0 i0 : ℕ) (sE iE : ℕ → ℕ → ℤ),
      b0 < numBatches n bs → i0 < nSetsThisBatch n bs b0 → sE b0 i0 ≠ 0 →
      (∀ b, b < b0 → ∀ i, i < nSetsThisBatch n bs b → sE b i = 0) →
      (∀ j, j < i0 → sE b0 j = 0) →
      finufft_exec12 1 n bs sE iE = sE b0 i0) ∧
    (∀ (n bs b0 : ℕ) (inner0 : InnerT2) (sE : ℕ → ℕ → ℤ) (iE : ℕ → ℤ),
      b0 < numBatches n bs → 0 < iE b0 → (∀ b, b < b0 → ¬ 0 < iE b) →
      (finufft_exec3 n bs inner0 sE iE true).1 = Exec3Outcome.exited (iE b0)) ∧
    (∀ (n bs : ℕ) (inner0 : InnerT2) (sE : ℕ → ℕ → ℤ) (iE : ℕ → ℤ),
      (∀ b, ¬ 0 < iE b) →
      (finufft_exec3 n bs inner0 sE iE true).1 = Exec3Outcome.ret 0) := by
  refine ⟨?_, ?_, ?_, ?_⟩
  · intro n bs sE iE
    have h := exec12_type2_ret n bs sE iE (List.range (numBatches n bs))
      { ret := none, iers := fun _ => 0 } rfl
    simp only [finufft_exec12]
    rw [h]
  · intro n bs b0 i0 sE iE hb0 hi0 hne hminb hmini
    simp only [finufft_exec12]
    rw [foldl_range_split (exec12Step 1 n bs sE iE) (numBatches n bs) (b0 + 1)
        hb0 { ret := none, iers := fun _ => 0 }]
    rw [List.range_succ, List.foldl_append]
    obtain ⟨hr0, his⟩ := exec12_zero_prefix n bs sE iE (List.range b0)
      { ret := none, iers := fun _ => 0 }
      (fun b hb i hi => hminb b (List.mem_range.mp hb) i hi) rfl (fun _ => rfl)
    set st0 := (List.range b0).foldl (exec12Step 1 n bs sE iE)
      { ret := none, iers := fun _ => 0 } with hst0
    have hw : ∀ i, writeIers (sE b0) (nSetsThisBatch n bs b0) st0.iers i
        = if i < nSetsThisBatch n bs b0 ∧ sE b0 i ≠ 0 then sE b0 i else 0 := by
      intro i
      unfold writeIers
      by_cases hc : i < nSetsThisBatch n bs b0 ∧ sE b0 i ≠ 0
      · rw [if_pos hc, if_pos hc]
      · rw [if_neg hc, if_neg hc]
        exact his i
    have hwi0 : writeIers (sE b0) (nSetsThisBatch n bs b0) st0.iers i0 = sE b0 i0 := by
      rw [hw i0, if_pos ⟨hi0, hne⟩]
    have hfind : (List.range (nSetsThisBatch n bs b0)).find? (fun i =>
        decide (writeIers (sE b0) (nSetsThisBatch n bs b0) st0.iers i ≠ 0))
        = some i0 := by
      apply range_find?_eq_some hi0
      · rw [decide_eq_true_eq, hwi0]
        exact hne
      · intro j hj
        have hj0 : writeIers (sE b0) (nSetsThisBatch n bs b0) st0.iers j = 0 := by
          rw [hw j, if_neg (fun hc => hc.2 (hmini j hj))]
        rw [hj0]
        decide
    rw [List.foldl_cons, List.foldl_nil,
        exec12Step_type1 n bs sE iE st0 b0 hr0, hfind]
    rw [exec12_foldl_absorb 1 n bs sE iE _ _
        (writeIers (sE b0) (nSetsThisBatch n bs b0) st0.iers i0) rfl]
    exact hwi0
  · intro n bs b0 inner0 sE iE hb0 hpos hmin
    have hfinal : ((List.range (numBatches n bs)).foldl (exec3Step n bs sE iE)
        { exitCode := none, inner := inner0, iers := fun _ => 0 }).exitCode
        = some (iE b0) := by
      rw [foldl_range_split (exec3Step n bs sE iE) (numBatches n bs) (b0 + 1)
          hb0 { exitCode := none, inner := inner0, iers := fun _ => 0 }]
      rw [List.range_succ, List.foldl_append, List.foldl_cons, List.foldl_nil]
      have hpre : ((List.range b0).foldl (exec3Step n bs sE iE)
          { exitCode := none, inner := inner0, iers := fun _ => 0 }).exitCode = none :=
        exec3_noexit n bs sE iE (List.range b0) _
          (fun b hb => hmin b (List.mem_range.mp hb)) rfl
      have hstep := exec3Step_exit n bs sE iE _ b0 hpre hpos
      rw [exec3_foldl_absorb n bs sE iE _ _ (iE b0) hstep]
      exact hstep
    simp only [finufft_exec3, if_true]
    rw [hfinal]
  · intro n bs inner0 sE iE hz
    have hfinal : ((List.range (numBatches n bs)).foldl (exec3Step n bs sE iE)
        { exitCode := none, inner := inner0, iers := fun _ => 0 }).exitCode = none :=
      exec3_noexit n bs sE iE _ _ (fun b _ => hz b) rfl
    simp only [finufft_exec3, if_true]
    rw [hfinal]

/-- C1 witness: concrete runs of the amended statement.  A type 2
execute with failing interpolations returns 0; a type 1 execute of 3
transforms at batch size 2, whose batch 1 spreads fail with code 7,
returns 7; a type 3 execute whose batch 0 inner execute fails with
code 5 exits with code 5. -/
theorem c1_amended_witness :
    finufft_exec12 2 1 1 sEw iEw = 0 ∧
    (1 < numBatches 3 2 ∧ 0 < nSetsThisBatch 3 2 1 ∧ sEw 1 0 ≠ 0 ∧
      finufft_exec12 1 3 2 sEw iEw = 7) ∧
    (0 < numBatches 3 2 ∧ 0 < iE3w 0 ∧
      (finufft_exec3 3 2 inner0w sEw iE3w true).1 = Exec3Outcome.exited 5) :=
  ⟨c1_amended.1 1 1 sEw iEw,
   ⟨by decide, by decide, by decide,
    c1_amended.2.1 3 2 1 0 sEw iEw (by decide) (by decide) (by decide)
      (by decide) (fun j hj => absurd hj (Nat.not_lt_zero j))⟩,
   ⟨by decide, by decide,
    c1_amended.2.2.1 3 2 0 inner0w sEw iE3w (by decide) (by decide)
      (fun b hb => absurd hb (Nat.not_lt_zero b))⟩⟩

/-- C9: in the type 3 batch loop, the lastRound flag of line 553 holds
exactly when the batch is the final one and blksize does not divide
n_transf (the final batch is short); in that case and only that case a
running step mutates the inner type 2 plan's n_transf to
nSetsThisBatch before the inner execute, while a full batch leaves it
untouched; no step, and no complete execution, ever changes the inner
plan's FFTW handle, so the FFT plan is never rebuilt. -/
theorem c9_last_short_mutation (n bs b : ℕ) (hbs : 0 < bs) (hb : b * bs < n)
    (sE : ℕ → ℕ → ℤ) (iE : ℕ → ℤ) (st : Exec3State) (hst : st.exitCode = none)
    (inner0 : InnerT2) (cpjOk : Bool) :
    (lastRound n bs b = true ↔ (b + 1 = numBatches n bs ∧ ¬ bs ∣ n)) ∧
    ((exec3Step n bs sE iE st b).inner.n_transf
      = if lastRound n bs b then nSetsThisBatch n bs b else st.inner.n_transf) ∧
    ((exec3Step n bs sE iE st b).inner.fftwHandle = st.inner.fftwHandle) ∧
    ((finufft_exec3 n bs inner0 sE iE cpjOk).2.fftwHandle = inner0.fftwHandle) := by
  refine ⟨lastRound_iff hbs hb, ?_, exec3Step_handle n bs sE iE st b, ?_⟩
  · rcases st with ⟨ec, inn, ie⟩
    simp only [Exec3State.exitCode] at hst
    subst hst
    by_cases hp : 0 < iE b <;> by_cases hl : lastRound n bs b <;>
      simp [exec3Step, hp, hl]
  · cases cpjOk with
    | false => rfl
    | true =>
      have hh := exec3_foldl_handle n bs sE iE (List.range (numBatches n bs))
        { exitCode := none, inner := inner0, iers := fun _ => 0 }
      simp only [finufft_exec3, if_true]
      split <;> exact hh

/-- C9 witness: a run with 3 transforms at batch size 2, where batch 1
is the last and short: lastRound holds there, the running step rewires
the inner plan to 1 transform, and the handle survives a full
execution. -/
theorem c9_last_short_mutation_witness :
    0 < 2 ∧ 1 * 2 < 3 ∧
    (lastRound 3 2 1 = true ↔ (1 + 1 = numBatches 3 2 ∧ ¬ 2 ∣ 3)) ∧
    ((exec3Step 3 2 sEw iE3w st3w 1).inner.n_transf
      = if lastRound 3 2 1 then nSetsThisBatch 3 2 1 else st3w.inner.n_transf) ∧
    ((finufft_exec3 3 2 inner0w sEw iE3w true).2.fftwHandle = inner0w.fftwHandle) :=
  ⟨by decide, by decide,
   (c9_last_short_mutation 3 2 1 (by decide) (by decide) sEw iE3w st3w rfl
      inner0w true).1,
   (c9_last_short_mutation 3 2 1 (by decide) (by decide) sEw iE3w st3w rfl
      inner0w true).2.1,
   (c9_last_short_mutation 3 2 1 (by decide) (by decide) sEw iE3w st3w rfl
      inner0w true).2.2.2⟩

/-- The allocation tail of makeplan writes neither fftsign, nor
blksize, nor n_transf. -/
theorem makeplanT12Tail_keeps (p : Plan) (tpb : ℤ) (env : MakeplanEnv) :
    (makeplanT12Tail p tpb env).plan.fftsign = p.fftsign ∧
    (makeplanT12Tail p tpb env).plan.blksize = p.blksize ∧
    (makeplanT12Tail p tpb env).plan.n_transf = p.n_transf := by
  unfold makeplanT12Tail
  by_cases h1 : env.phiHatOk
  · rw [if_pos h1]
    by_cases h2 : env.maxNF < p.nf1 * p.nf2 * p.nf3 * tpb
    · rw [if_pos h2]
      exact ⟨rfl, rfl, rfl⟩
    · rw [if_neg h2]
      by_cases h3 : env.fwOk
      · rw [if_pos h3]
        exact ⟨rfl, rfl, rfl⟩
      · rw [if_neg h3]
        exact ⟨rfl, rfl, rfl⟩
  · rw [if_neg h1]
    exact ⟨rfl, rfl, rfl⟩

/-- After validation and spreader setup succeed, the plan written back
by finufft_makeplan carries the cleaned-up sign, the batch size rule
of lines 124-128, and the requested transform count, on every
remaining path. -/
theorem makeplan_core_fields (type dim : ℤ) (n_modes : ℤ × ℤ × ℤ)
    (iflag n_transf blksize : ℤ) (p0 : Plan) (env : MakeplanEnv)
    (hty : ¬(type ≠ 1 ∧ type ≠ 2 ∧ type ≠ 3))
    (hdim : ¬(dim ≠ 1 ∧ dim ≠ 2 ∧ dim ≠ 3))
    (hnt : ¬ n_transf < 1)
    (hsetup : env.setupIer = none) :
    (finufft_makeplan type dim n_modes iflag n_transf blksize p0 env).plan.fftsign
      = (if 0 ≤ iflag then 1 else -1) ∧
    (finufft_makeplan type dim n_modes iflag n_transf blksize p0 env).plan.blksize
      = (if blksize = 0 then min env.ompMaxThreads env.maxUsefulNthreads else blksize) ∧
    (finufft_makeplan type dim n_modes iflag n_transf blksize p0 env).plan.n_transf
      = n_transf := by
  simp only [finufft_makeplan, if_neg hty, if_neg hdim, if_neg hnt, hsetup]
  by_cases h12 : type = 1 ∨ type = 2
  · rw [if_pos h12]
    cases hnf1 : env.setNf n_modes.1 with
    | none => exact ⟨rfl, rfl, rfl⟩
    | some nf1 =>
      dsimp only
      by_cases hd2 : 1 < dim
      · rw [if_pos hd2]
        cases hnf2 : env.setNf n_modes.2.1 with
        | none => exact ⟨rfl, rfl, rfl⟩
        | some nf2 =>
          dsimp only
          by_cases hd3 : 2 < dim
          · rw [if_pos hd3]
            cases hnf3 : env.setNf n_modes.2.2 with
            | none => exact ⟨rfl, rfl, rfl⟩
            | some nf3 =>
              dsimp only
              obtain ⟨h1, h2, h3⟩ := makeplanT12Tail_keeps _
                (min (if blksize = 0 then min env.ompMaxThreads env.maxUsefulNthreads else blksize) n_transf) env
              exact ⟨by rw [h1], by rw [h2], by rw [h3]⟩
          · rw [if_neg hd3]
            obtain ⟨h1, h2, h3⟩ := makeplanT12Tail_keeps _
              (min (if blksize = 0 then min env.ompMaxThreads env.maxUsefulNthreads else blksize) n_transf) env
            exact ⟨by rw [h1], by rw [h2], by rw [h3]⟩
      · rw [if_neg hd2]
        obtain ⟨h1, h2, h3⟩ := makeplanT12Tail_keeps _
          (min (if blksize = 0 then min env.ompMaxThreads env.maxUsefulNthreads else blksize) n_transf) env
        exact ⟨by rw [h1], by rw [h2], by rw [h3]⟩
  · rw [if_neg h12]
    exact ⟨rfl, rfl, rfl⟩

/-- C10: for every integer iflag passed to finufft_makeplan (on the
paths where the field is written, i.e. once type, dim, n_transf and
the spreader setup pass), the stored fftsign is +1 exactly when iflag
is non-negative (including zero) and -1 exactly when it is negative,
hence always lies in the set of the two values +1 and -1. -/
theorem c10_fftsign (type dim : ℤ) (n_modes : ℤ × ℤ × ℤ)
    (iflag n_transf blksize : ℤ) (p0 : Plan) (env : MakeplanEnv)
    (hty : type = 1 ∨ type = 2 ∨ type = 3)
    (hdim : dim = 1 ∨ dim = 2 ∨ dim = 3)
    (hnt : 1 ≤ n_transf)
    (hsetup : env.setupIer = none) :
    (0 ≤ iflag →
      (finufft_makeplan type dim n_modes iflag n_transf blksize p0 env).plan.fftsign = 1) ∧
    (iflag < 0 →
      (finufft_makeplan type dim n_modes iflag n_transf blksize p0 env).plan.fftsign = -1) ∧
    ((finufft_makeplan type dim n_modes iflag n_transf blksize p0 env).plan.fftsign = 1 ∨
      (finufft_makeplan type dim n_modes iflag n_transf blksize p0 env).plan.fftsign = -1) := by
  have hty' : ¬(type ≠ 1 ∧ type ≠ 2 ∧ type ≠ 3) := fun hc => by
    rcases hty with h | h | h
    exacts [hc.1 h, hc.2.1 h, hc.2.2 h]
  have hdim' : ¬(dim ≠ 1 ∧ dim ≠ 2 ∧ dim ≠ 3) := fun hc => by
    rcases hdim with h | h | h
    exacts [hc.1 h, hc.2.1 h, hc.2.2 h]
  have hnt' : ¬ n_transf < 1 := by omega
  obtain ⟨hf, _, _⟩ := makeplan_core_fields type dim n_modes iflag n_transf blksize
    p0 env hty' hdim' hnt' hsetup
  refine ⟨fun hpos => by rw [hf, if_pos hpos],
          fun hneg => by rw [hf, if_neg (by omega : ¬ 0 ≤ iflag)], ?_⟩
  rw [hf]
  by_cases hpos : 0 ≤ iflag
  · exact Or.inl (if_pos hpos)
  · exact Or.inr (if_neg hpos)

/-- C10 witness: iflag = 0 stores sign +1, iflag = -5 stores sign
-1. -/
theorem c10_fftsign_witness :
    (finufft_makeplan 1 1 (2, 1, 1) 0 1 1 plan0 envA).plan.fftsign = 1 ∧
    (finufft_makeplan 1 1 (2, 1, 1) (-5) 1 1 plan0 envA).plan.fftsign = -1 :=
  ⟨(c10_fftsign 1 1 (2, 1, 1) 0 1 1 plan0 envA (Or.inl rfl) (Or.inl rfl)
      (by decide) rfl).1 (by decide),
   (c10_fftsign 1 1 (2, 1, 1) (-5) 1 1 plan0 envA (Or.inl rfl) (Or.inl rfl)
      (by decide) rfl).2.1 (by decide)⟩

/-- C2 counterexample: with 8 OpenMP threads and MAX_USEFUL_NTHREADS =
24, a single-transform type 1 plan made with batch-size argument 0
gets blksize 8 = min(8, 24), not min(n_transf, 24) = 1, and the stored
batch size exceeds n_transf. -/
theorem c2_counterexample :
    (finufft_makeplan 1 1 (2, 1, 1) 1 1 0 plan0 envA).plan.n_transf = 1 ∧
    (finufft_makeplan 1 1 (2, 1, 1) 1 1 0 plan0 envA).plan.blksize = 8 ∧
    (finufft_makeplan 1 1 (2, 1, 1) 1 1 0 plan0 envA).plan.blksize
      ≠ min (finufft_makeplan 1 1 (2, 1, 1) 1 1 0 plan0 envA).plan.n_transf
          envA.maxUsefulNthreads ∧
    ¬ (finufft_makeplan 1 1 (2, 1, 1) 1 1 0 plan0 envA).plan.blksize
      ≤ (finufft_makeplan 1 1 (2, 1, 1) 1 1 0 plan0 envA).plan.n_transf := by
  decide

/-- C2 (amended): when the caller passes batch_size zero, the plan's
batch size is set to min(MY_OMP_GET_MAX_THREADS(),
MAX_USEFUL_NTHREADS), with no dependence on n_transf, so it can
exceed n_transf. -/
theorem c2_amended (type dim : ℤ) (n_modes : ℤ × ℤ × ℤ)
    (iflag n_transf blksize : ℤ) (p0 : Plan) (env : MakeplanEnv)
    (hty : type = 1 ∨ type = 2 ∨ type = 3)
    (hdim : dim = 1 ∨ dim = 2 ∨ dim = 3)
    (hnt : 1 ≤ n_transf)
    (hsetup : env.setupIer = none)
    (hblk : blksize = 0) :
    (finufft_makeplan type dim n_modes iflag n_transf blksize p0 env).plan.blksize
      = min env.ompMaxThreads env.maxUsefulNthreads := by
  have hty' : ¬(type ≠ 1 ∧ type ≠ 2 ∧ type ≠ 3) := fun hc => by
    rcases hty with h | h | h
    exacts [hc.1 h, hc.2.1 h, hc.2.2 h]
  have hdim' : ¬(dim ≠ 1 ∧ dim ≠ 2 ∧ dim ≠ 3) := fun hc => by
    rcases hdim with h | h | h
    exacts [hc.1 h, hc.2.1 h, hc.2.2 h]
  have hnt' : ¬ n_transf < 1 := by omega
  obtain ⟨_, hb, _⟩ := makeplan_core_fields type dim n_modes iflag n_transf blksize
    p0 env hty' hdim' hnt' hsetup
  rw [hb, if_pos hblk]

/-- C2 witness: the amended rule evaluated on the concrete
environment. -/
theorem c2_amended_witness :
    (finufft_makeplan 1 1 (2, 1, 1) 1 1 0 plan0 envA).plan.blksize
      = min envA.ompMaxThreads envA.maxUsefulNthreads :=
  c2_amended 1 1 (2, 1, 1) 1 1 0 plan0 envA (Or.inl rfl) (Or.inl rfl)
    (by decide) rfl rfl

/-- The allocation tail of makeplan can only succeed or fail with
ERR_ALLOC or ERR_MAXNALLOC. -/
theorem makeplanT12Tail_ret (p : Plan) (tpb : ℤ) (env : MakeplanEnv) :
    (makeplanT12Tail p tpb env).ret = none ∨
    (makeplanT12Tail p tpb env).ret = some ErrCode.eAlloc ∨
    (makeplanT12Tail p tpb env).ret = some ErrCode.eMaxnalloc := by
  unfold makeplanT12Tail
  by_cases h1 : env.phiHatOk
  · rw [if_pos h1]
    by_cases h2 : env.maxNF < p.nf1 * p.nf2 * p.nf3 * tpb
    · rw [if_pos h2]
      exact Or.inr (Or.inr rfl)
    · rw [if_neg h2]
      by_cases h3 : env.fwOk
      · rw [if_pos h3]
        exact Or.inl rfl
      · rw [if_neg h3]
        exact Or.inr (Or.inl rfl)
  · rw [if_neg h1]
    exact Or.inr (Or.inl rfl)

/-- Past the three validation checks, finufft_makeplan can only
return 0, the spreader-setup codes, ERR_ALLOC or ERR_MAXNALLOC. -/
theorem makeplan_ret_cases (type dim : ℤ) (n_modes : ℤ × ℤ × ℤ)
    (iflag n_transf blksize : ℤ) (p0 : Plan) (env : MakeplanEnv)
    (hty : ¬(type ≠ 1 ∧ type ≠ 2 ∧ type ≠ 3))
    (hdim : ¬(dim ≠ 1 ∧ dim ≠ 2 ∧ dim ≠ 3))
    (hnt : ¬ n_transf < 1) :
    (finufft_makeplan type dim n_modes iflag n_transf blksize p0 env).ret = none ∨
    (finufft_makeplan type dim n_modes iflag n_transf blksize p0 env).ret
      = some ErrCode.warnEpsTooSmall ∨
    (finufft_makeplan type dim n_modes iflag n_transf blksize p0 env).ret
      = some ErrCode.eUpsampfacNotValid ∨
    (finufft_makeplan type dim n_modes iflag n_transf blksize p0 env).ret
      = some ErrCode.eAlloc ∨
    (finufft_makeplan type dim n_modes iflag n_transf blksize p0 env).ret
      = some ErrCode.eMaxnalloc := by
  simp only [finufft_makeplan, if_neg hty, if_neg hdim, if_neg hnt]
  cases hsu : env.setupIer with
  | some c =>
    cases c
    · exact Or.inr (Or.inl rfl)
    · exact Or.inr (Or.inr (Or.inl rfl))
  | none =>
    dsimp only
    by_cases h12 : type = 1 ∨ type = 2
    · rw [if_pos h12]
      cases hnf1 : env.setNf n_modes.1 with
      | none => exact Or.inr (Or.inr (Or.inr (Or.inr rfl)))
      | some nf1 =>
        dsimp only
        by_cases hd2 : 1 < dim
        · rw [if_pos hd2]
          cases hnf2 : env.setNf n_modes.2.1 with
          | none => exact Or.inr (Or.inr (Or.inr (Or.inr rfl)))
          | some nf2 =>
            dsimp only
            by_cases hd3 : 2 < dim
            · rw [if_pos hd3]
              cases hnf3 : env.setNf n_modes.2.2 with
              | none => exact Or.inr (Or.inr (Or.inr (Or.inr rfl)))
              | some nf3 =>
                dsimp only
                rcases makeplanT12Tail_ret _
                  (min (if blksize = 0 then min env.ompMaxThreads env.maxUsefulNthreads else blksize) n_transf)
                  env with h | h | h
                · exact Or.inl h
                · exact Or.inr (Or.inr (Or.inr (Or.inl h)))
                · exact Or.inr (Or.inr (Or.inr (Or.inr h)))
            · rw [if_neg hd3]
              rcases makeplanT12Tail_ret _
                (min (if blksize = 0 then min env.ompMaxThreads env.maxUsefulNthreads else blksize) n_transf)
                env with h | h | h
              · exact Or.inl h
              · exact Or.inr (Or.inr (Or.inr (Or.inl h)))
              · exact Or.inr (Or.inr (Or.inr (Or.inr h)))
        · rw [if_neg hd2]
          rcases makeplanT12Tail_ret _
            (min (if blksize = 0 then min env.ompMaxThreads env.maxUsefulNthreads else blksize) n_transf)
            env with h | h | h
          · exact Or.inl h
          · exact Or.inr (Or.inr (Or.inr (Or.inl h)))
          · exact Or.inr (Or.inr (Or.inr (Or.inr h)))
    · rw [if_neg h12]
      exact Or.inl rfl

/-- C4: finufft_makeplan returns ERR_TYPE_NOTVALID for every type
outside the set of the values 1, 2, 3; returns ERR_DIM_NOTVALID for
every dim outside that set once type is valid; returns
ERR_NTRANSF_NOTVALID for every n_transf below 1 once type and dim are
valid; and for arguments passing all three checks it never returns
any of those three codes. -/
theorem c4_validation (type dim : ℤ) (n_modes : ℤ × ℤ × ℤ)
    (iflag n_transf blksize : ℤ) (p0 : Plan) (env : MakeplanEnv) :
    ((type ≠ 1 ∧ type ≠ 2 ∧ type ≠ 3) →
      (finufft_makeplan type dim n_modes iflag n_transf blksize p0 env).ret
        = some ErrCode.eTypeNotValid) ∧
    ((type = 1 ∨ type = 2 ∨ type = 3) → (dim ≠ 1 ∧ dim ≠ 2 ∧ dim ≠ 3) →
      (finufft_makeplan type dim n_modes iflag n_transf blksize p0 env).ret
        = some ErrCode.eDimNotValid) ∧
    ((type = 1 ∨ type = 2 ∨ type = 3) → (dim = 1 ∨ dim = 2 ∨ dim = 3) →
      n_transf < 1 →
      (finufft_makeplan type dim n_modes iflag n_transf blksize p0 env).ret
        = some ErrCode.eNtransfNotValid) ∧
    ((type = 1 ∨ type = 2 ∨ type = 3) → (dim = 1 ∨ dim = 2 ∨ dim = 3) →
      1 ≤ n_transf →
      (finufft_makeplan type dim n_modes iflag n_transf blksize p0 env).ret
          ≠ some ErrCode.eTypeNotValid ∧
        (finufft_makeplan type dim n_modes iflag n_transf blksize p0 env).ret
          ≠ some ErrCode.eDimNotValid ∧
        (finufft_makeplan type dim n_modes iflag n_transf blksize p0 env).ret
          ≠ some ErrCode.eNtransfNotValid) := by
  refine ⟨?_, ?_, ?_, ?_⟩
  · intro h
    unfold finufft_makeplan
    rw [if_pos h]
  · intro h1 h2
    have h1' : ¬(type ≠ 1 ∧ type ≠ 2 ∧ type ≠ 3) := fun hc => by
      rcases h1 with h | h | h
      exacts [hc.1 h, hc.2.1 h, hc.2.2 h]
    unfold finufft_makeplan
    rw [if_neg h1', if_pos h2]
  · intro h1 h2 h3
    have h1' : ¬(type ≠ 1 ∧ type ≠ 2 ∧ type ≠ 3) := fun hc => by
      rcases h1 with h | h | h
      exacts [hc.1 h, hc.2.1 h, hc.2.2 h]
    have h2' : ¬(dim ≠ 1 ∧ dim ≠ 2 ∧ dim ≠ 3) := fun hc => by
      rcases h2 with h | h | h
      exacts [hc.1 h, hc.2.1 h, hc.2.2 h]
    unfold finufft_makeplan
    rw [if_neg h1', if_neg h2', if_pos h3]
  · intro h1 h2 h3
    have h1' : ¬(type ≠ 1 ∧ type ≠ 2 ∧ type ≠ 3) := fun hc => by
      rcases h1 with h | h | h
      exacts [hc.1 h, hc.2.1 h, hc.2.2 h]
    have h2' : ¬(dim ≠ 1 ∧ dim ≠ 2 ∧ dim ≠ 3) := fun hc => by
      rcases h2 with h | h | h
      exacts [hc.1 h, hc.2.1 h, hc.2.2 h]
    have h3' : ¬ n_transf < 1 := by omega
    rcases makeplan_ret_cases type dim n_modes iflag n_transf blksize p0 env
      h1' h2' h3' with h | h | h | h | h <;>
      rw [h] <;> exact ⟨by decide, by decide, by decide⟩

/-- C4 witness: type 5 is rejected as ERR_TYPE_NOTVALID, dim 7 as
ERR_DIM_NOTVALID, n_transf 0 as ERR_NTRANSF_NOTVALID, and a valid call
does not produce ERR_TYPE_NOTVALID. -/
theorem c4_validation_witness :
    (finufft_makeplan 5 1 (2, 1, 1) 1 1 1 plan0 envA).ret
      = some ErrCode.eTypeNotValid ∧
    (finufft_makeplan 1 7 (2, 1, 1) 1 1 1 plan0 envA).ret
      = some ErrCode.eDimNotValid ∧
    (finufft_makeplan 1 1 (2, 1, 1) 1 0 1 plan0 envA).ret
      = some ErrCode.eNtransfNotValid ∧
    (finufft_makeplan 1 1 (2, 1, 1) 1 1 1 plan0 envA).ret
      ≠ some ErrCode.eTypeNotValid :=
  ⟨(c4_validation 5 1 (2, 1, 1) 1 1 1 plan0 envA).1 (by decide),
   (c4_validation 1 7 (2, 1, 1) 1 1 1 plan0 envA).2.1 (by decide) (by decide),
   (c4_validation 1 1 (2, 1, 1) 1 0 1 plan0 envA).2.2.1 (by decide) (by decide)
     (by decide),
   ((c4_validation 1 1 (2, 1, 1) 1 1 1 plan0 envA).2.2.2 (by decide) (by decide)
     (by decide)).1⟩

/-- Once phiHat is allocated, the allocation tail fails with
ERR_MAXNALLOC exactly when nf1*nf2*nf3*transfPerBatch exceeds
MAX_NF. -/
theorem makeplanT12Tail_ret_iff (p : Plan) (tpb : ℤ) (env : MakeplanEnv)
    (hphi : env.phiHatOk = true) :
    ((makeplanT12Tail p tpb env).ret = some ErrCode.eMaxnalloc
      ↔ env.maxNF < p.nf1 * p.nf2 * p.nf3 * tpb) := by
  unfold makeplanT12Tail
  rw [if_pos hphi]
  by_cases h2 : env.maxNF < p.nf1 * p.nf2 * p.nf3 * tpb
  · rw [if_pos h2]
    exact iff_of_true rfl h2
  · rw [if_neg h2]
    by_cases h3 : env.fwOk
    · rw [if_pos h3]
      exact iff_of_false (by simp) h2
    · rw [if_neg h3]
      exact iff_of_false (by simp) h2

/-- C5: for types 1 and 2, with the spreader setup and the per-dim
fine-grid computations succeeding and the phiHat allocation
succeeding, finufft_makeplan returns ERR_MAXNALLOC exactly when the
product of the chosen fine-grid sizes (1 for unused dims) times the
transforms-per-FFT-batch count min(blksize, n_transf) exceeds MAX_NF;
otherwise it gets past this check. -/
theorem c5_maxnalloc (type dim : ℤ) (n_modes : ℤ × ℤ × ℤ)
    (iflag n_transf blksize : ℤ) (p0 : Plan) (env : MakeplanEnv)
    (nf1 nf2 nf3 : ℤ)
    (hty : type = 1 ∨ type = 2)
    (hdim : dim = 1 ∨ dim = 2 ∨ dim = 3)
    (hnt : 1 ≤ n_transf)
    (hsetup : env.setupIer = none)
    (h1 : env.setNf n_modes.1 = some nf1)
    (h2 : env.setNf n_modes.2.1 = some nf2)
    (h3 : env.setNf n_modes.2.2 = some nf3)
    (hphi : env.phiHatOk = true) :
    ((finufft_makeplan type dim n_modes iflag n_transf blksize p0 env).ret
        = some ErrCode.eMaxnalloc
      ↔ env.maxNF < nf1 * (if 1 < dim then nf2 else 1) * (if 2 < dim then nf3 else 1)
          * min (if blksize = 0 then min env.ompMaxThreads env.maxUsefulNthreads else blksize)
              n_transf) := by
  have hty' : ¬(type ≠ 1 ∧ type ≠ 2 ∧ type ≠ 3) := fun hc => by
    rcases hty with h | h
    exacts [hc.1 h, hc.2.1 h]
  have hdim' : ¬(dim ≠ 1 ∧ dim ≠ 2 ∧ dim ≠ 3) := fun hc => by
    rcases hdim with h | h | h
    exacts [hc.1 h, hc.2.1 h, hc.2.2 h]
  have hnt' : ¬ n_transf < 1 := by omega
  simp only [finufft_makeplan, if_neg hty', if_neg hdim', if_neg hnt', hsetup]
  rw [if_pos hty]
  simp only [h1]
  rcases hdim with hd | hd | hd <;> subst hd
  · simp only [if_neg (by norm_num : ¬ (1:ℤ) < 1), if_neg (by norm_num : ¬ (2:ℤ) < 1)]
    exact makeplanT12Tail_ret_iff _ _ env hphi
  · simp only [if_pos (by norm_num : (1:ℤ) < 2), if_neg (by norm_num : ¬ (2:ℤ) < 2), h2]
    exact makeplanT12Tail_ret_iff _ _ env hphi
  · simp only [if_pos (by norm_num : (1:ℤ) < 3), if_pos (by norm_num : (2:ℤ) < 3), h2, h3]
    exact makeplanT12Tail_ret_iff _ _ env hphi

/-- C5 witness: a 1D type 1 plan with 1000 modes on a sizer doubling
the mode count and MAX_NF = 100 trips the product check and returns
ERR_MAXNALLOC, as 2000 * 1 * 1 * min(1, 1) exceeds 100. -/
theorem c5_maxnalloc_witness :
    (finufft_makeplan 1 1 (1000, 1, 1) 1 1 1 plan0 envB).ret
      = some ErrCode.eMaxnalloc :=
  (c5_maxnalloc 1 1 (1000, 1, 1) 1 1 1 plan0 envB 2000 2 2 (Or.inl rfl)
    (Or.inl rfl) (by decide) rfl rfl rfl rfl rfl).mpr (by decide)

/-- C6: finufft_makeplan evaluated at an input that trips the MAX_NF
product check of line 186: it returns ERR_MAXNALLOC with the phiHat
allocation made at line 172 still live (never freed) and the plan
still holding the pointer, whereas the fw-allocation failure path of
lines 192-196 (same input except fw allocation fails) does free
phiHat before returning ERR_ALLOC.  The claim that every error return
first releases everything the call allocated is therefore broken
exactly on the ERR_MAXNALLOC path. -/
theorem c6_phihat_leak :
    (finufft_makeplan 1 1 (1000, 1, 1) 1 1 1 plan0 envB).ret
      = some ErrCode.eMaxnalloc ∧
    (finufft_makeplan 1 1 (1000, 1, 1) 1 1 1 plan0 envB).phiHatLive = true ∧
    (finufft_makeplan 1 1 (1000, 1, 1) 1 1 1 plan0 envB).plan.phiHat = true ∧
    (finufft_makeplan 1 1 (2, 1, 1) 1 1 1 plan0 envC).ret
      = some ErrCode.eAlloc ∧
    (finufft_makeplan 1 1 (2, 1, 1) 1 1 1 plan0 envC).phiHatLive = false := by
  decide

/-- C7 counterexample: on a type 3 plan holding a sort index, owned
rescaled point arrays and an inner type 2 plan, finufft_destroy frees
only the sort index - the inner plan and rescaled arrays are never
released - and, because no pointer field is cleared, a second call
repeats the same non-empty list of frees instead of being a no-op. -/
theorem c7_counterexample :
    (finufft_destroy plan3d).1 = [FreeAction.sortIndicesFree] ∧
    plan3d.innerT2 ≠ none ∧
    plan3d.rescaledPts = true ∧
    FreeAction.innerDestroy ∉ (finufft_destroy plan3d).1 ∧
    FreeAction.rescaledFree ∉ (finufft_destroy plan3d).1 ∧
    (finufft_destroy ((finufft_destroy plan3d).2)).1 ≠ ([] : List FreeAction) := by
  decide

/-- C7 (amended): finufft_destroy frees, in order, the FFT handle,
fw, phiHat and the sort index, each exactly when its pointer is
non-null; it never frees the type 3 rescaled point arrays or the
inner plan; it leaves every field of the plan unchanged, so a second
call performs exactly the same frees again (a double free) rather
than being a no-op. -/
theorem c7_amended (p : Plan) :
    (finufft_destroy p).2 = p ∧
    (finufft_destroy p).1 =
      ([FreeAction.fftwDestroy, FreeAction.fwFree, FreeAction.phiHatFree,
        FreeAction.sortIndicesFree].filter (destroyGuard p)) ∧
    (finufft_destroy ((finufft_destroy p).2)).1 = (finufft_destroy p).1 ∧
    FreeAction.innerDestroy ∉ (finufft_destroy p).1 ∧
    FreeAction.rescaledFree ∉ (finufft_destroy p).1 := by
  refine ⟨rfl, ?_, rfl, ?_, ?_⟩ <;>
    rcases h1 : p.fftwPlan <;> rcases h2 : p.fw <;>
    rcases h3 : p.phiHat <;> rcases h4 : p.sortIndices <;>
    simp [finufft_destroy, destroyGuard, h1, h2, h3, h4]

/-- C8: the type 3 branch of finufft_setpts (lines 242-244) is empty:
on a freshly made type 3 plan the call stores nj, returns 0 and does
nothing else - no shift/scale parameters, no owned rescaled point
copies, no phiHat of kernel Fourier-integral values, no inner type 2
plan - although the function's own documentation (lines 220-222)
promises all of these. -/
theorem c8_type3_setpts_gutted :
    (finufft_setpts plan3s 1 (some 1) none none 1 0 false).1 = 0 ∧
    (finufft_setpts plan3s 1 (some 1) none none 1 0 false).2
      = { plan3s with nj := 1 } ∧
    (finufft_setpts plan3s 1 (some 1) none none 1 0 false).2.t3ParamsSet = false ∧
    (finufft_setpts plan3s 1 (some 1) none none 1 0 false).2.rescaledPts = false ∧
    (finufft_setpts plan3s 1 (some 1) none none 1 0 false).2.phiHat = false ∧
    (finufft_setpts plan3s 1 (some 1) none none 1 0 false).2.innerT2 = none := by
  decide

end Finufft
